import Mathlib

/-!
Verification of the `ledcontrol_pull.py` config-sync utility and the `dof.py`
handle wrapper.  Python strings are embedded as `List Char`, the filesystem as
an explicit record of files (path ↦ raw content) and directories, HTTP
responses and the archive as an environment record, and the script's
straight-line control flow as a pure function from parameters and environment
to a result (final filesystem, exit outcome, whether a download was triggered,
and the printed messages).
-/

set_option maxHeartbeats 1000000
set_option maxRecDepth 8000

/-- Characters of a string literal, used to embed Python string literals. -/
def strChars (s : String) : List Char := s.data

/-! ## Python text primitives -/

/-- The whitespace characters removed by Python's `str.strip()` (ASCII part). -/
def isPySpace (c : Char) : Bool :=
  c = ' ' ∨ c = '\t' ∨ c = '\n' ∨ c = '\r' ∨ c = '\x0b' ∨ c = '\x0c'

/-- Python `str.strip()`: drop whitespace from both ends. -/
def pyStrip (cs : List Char) : List Char :=
  ((cs.dropWhile isPySpace).reverse.dropWhile isPySpace).reverse

/-- Python `str.lower()` (ASCII behaviour). -/
def pyLower (cs : List Char) : List Char := cs.map Char.toLower

/-- Python `line.split("=", 1)` when `"=" in line`: the parts before and after
the first `'='`. -/
def splitFirstEq : List Char → List Char × List Char
  | [] => ([], [])
  | c :: cs =>
    if c = '=' then ([], cs)
    else (c :: (splitFirstEq cs).1, (splitFirstEq cs).2)

/-- Accumulator loop for `pyReadlines`. -/
def pyReadlinesAux : List Char → List Char → List (List Char)
  | [], acc => if acc = [] then [] else [acc.reverse]
  | c :: cs, acc =>
    if c = '\n' then (c :: acc).reverse :: pyReadlinesAux cs []
    else pyReadlinesAux cs (c :: acc)

/-- Python `f.readlines()`: split into lines, each keeping its `'\n'`. -/
def pyReadlines (cs : List Char) : List (List Char) := pyReadlinesAux cs []

/-- After the first digit, Python `int()` accepts digits with single
underscores strictly between digits. -/
def digitsSepOk : List Char → Bool
  | [] => true
  | c :: cs =>
    if c = '_' then
      match cs with
      | [] => false
      | d :: ds => d.isDigit && digitsSepOk ds
    else c.isDigit && digitsSepOk cs

/-- The digit part accepted by Python `int()`: a digit, then digits with
single separating underscores. -/
def pyIntDigitsOk : List Char → Bool
  | [] => false
  | c :: cs => c.isDigit && digitsSepOk cs

/-- Decimal value of a big-endian digit string. -/
def parseDigits (cs : List Char) : Nat :=
  cs.foldl (fun acc c => 10 * acc + (c.toNat - 48)) 0

/-- Remove the underscore separators Python `int()` ignores. -/
def stripUnderscores (cs : List Char) : List Char := cs.filter (fun c => c != '_')

/-- Python `int(s)` on a string: strip whitespace, optional sign, digits
(with underscore separators); `none` models a raised `ValueError`. -/
def pyInt (s : List Char) : Option Int :=
  match pyStrip s with
  | [] => none
  | c :: cs =>
    if c = '+' then
      if pyIntDigitsOk cs then some ((parseDigits (stripUnderscores cs) : Nat) : Int) else none
    else if c = '-' then
      if pyIntDigitsOk cs then some (-((parseDigits (stripUnderscores cs) : Nat) : Int)) else none
    else
      if pyIntDigitsOk (c :: cs) then
        some ((parseDigits (stripUnderscores (c :: cs)) : Nat) : Int)
      else none

/-- Decimal rendering of a natural number, as Python's `str` / f-string
interpolation produces for a non-negative `int`. -/
def natToChars (n : Nat) : List Char :=
  if n = 0 then ['0']
  else ((Nat.digits 10 n).map (fun d => Char.ofNat (48 + d))).reverse

/-! ## POSIX path operations (`os.path.join`, `os.path.dirname`) -/

/-- The prefix of `p` up to and including its last `'/'` (empty if none). -/
def upToLastSlash (p : List Char) : List Char :=
  (p.reverse.dropWhile (fun c => c != '/')).reverse

/-- `posixpath.dirname`: head up to the last slash, trailing slashes stripped
unless the head is all slashes. -/
def pyDirname (p : List Char) : List Char :=
  let head := upToLastSlash p
  if head = [] then []
  else if head.all (fun c => c = '/') then head
  else (head.reverse.dropWhile (fun c => c = '/')).reverse

/-- `posixpath.join a b`: an absolute `b` replaces `a`; otherwise they are
concatenated with a single separating slash. -/
def pyJoin (a b : List Char) : List Char :=
  if b.head? = some '/' then b
  else if a = [] ∨ a.getLast? = some '/' then a ++ b
  else a ++ '/' :: b

/-- Split a path into segments at `'/'`. -/
def splitSlashAux : List Char → List Char → List (List Char)
  | [], acc => [acc.reverse]
  | c :: cs, acc =>
    if c = '/' then acc.reverse :: splitSlashAux cs [] else splitSlashAux cs (c :: acc)

/-- Split a path into segments at `'/'`. -/
def splitSlash (p : List Char) : List (List Char) := splitSlashAux p []

/-- Resolve `"."`, `""` and `".."` segments (the latter pops), left to right. -/
def resolveSegsAux : List (List Char) → List (List Char) → List (List Char)
  | acc, [] => acc.reverse
  | acc, s :: rest =>
    if s = [] ∨ s = ['.'] then resolveSegsAux acc rest
    else if s = strChars ".." then resolveSegsAux (acc.drop 1) rest
    else resolveSegsAux (s :: acc) rest

/-- Join segments back with `'/'`. -/
def joinSegs : List (List Char) → List Char
  | [] => []
  | [s] => s
  | s :: rest => s ++ '/' :: joinSegs rest

/-- Normal form of an absolute path: resolve `".."` and `"."` segments. -/
def normalizeAbs (p : List Char) : List Char :=
  '/' :: joinSegs (resolveSegsAux [] (splitSlash p))

/-- A file written at `pyJoin root entryName` lands outside `root` when the
normalized destination is not below `root`. -/
def escapesRoot (root entryName : List Char) : Bool :=
  !(List.isPrefixOf (root ++ ['/']) (normalizeAbs (pyJoin root entryName)))

/-! ## Filesystem state -/

/-- Filesystem state: regular files (path ↦ raw byte/char content) and the
set of created directories. -/
structure FS where
  files : List (List Char × List Char)
  dirs : List (List Char)
deriving DecidableEq

/-- Content of the regular file at `p`, if present. -/
def fsRead (fs : FS) (p : List Char) : Option (List Char) :=
  (fs.files.find? (fun e => e.1 == p)).map (fun e => e.2)

/-- `os.path.exists` restricted to regular files. -/
def fsExists (fs : FS) (p : List Char) : Bool := (fsRead fs p).isSome

/-- `open(p, "w")` followed by a full write: replace the file at `p`. -/
def fsWrite (fs : FS) (p c : List Char) : FS :=
  { fs with files := (p, c) :: fs.files.filter (fun e => e.1 != p) }

/-- `os.remove p` (guarded by `os.path.exists` in the source, and removing a
missing file is the identity here, so the guard is absorbed). -/
def fsRemove (fs : FS) (p : List Char) : FS :=
  { fs with files := fs.files.filter (fun e => e.1 != p) }

/-- `os.makedirs(p, exist_ok=True)`: record the directory. -/
def fsMkdirs (fs : FS) (p : List Char) : FS := { fs with dirs := p :: fs.dirs }

/-! ## VersionStore: `ensure_ini`, `read_ini`, and the version record -/

/-- The version record filename, `dofconfigversion.ini`. -/
def iniName : List Char := strChars "dofconfigversion.ini"

/-- The record `ensure_ini` writes when the file is absent. -/
def iniDefaultContent : List Char := strChars "[version]\nversion=0\n"

/-- The record the script writes after a successful install
(`f'[version]\nversion={online_version}\n'`). -/
def versionRecordContent (v : Nat) : List Char :=
  strChars "[version]\nversion=" ++ natToChars v ++ ['\n']

/-- `ensure_ini`: create the INI with a zero version marker if absent. -/
def ensure_ini (fs : FS) (filePath : List Char) : FS :=
  if fsExists fs filePath = true then fs
  else fsWrite (fsMkdirs fs (pyDirname filePath)) filePath iniDefaultContent

/-- Line scan of `read_ini`: track whether the wanted section was entered;
return the stripped value of the first matching key (or `" "` if empty),
`""` on a new section header or at end of input. -/
def readIniLines (sect key : List Char) : List (List Char) → Bool → List Char
  | [], _ => []
  | line :: rest, inSection =>
    let l := pyStrip line
    if pyLower l = '[' :: (sect ++ [']']) then readIniLines sect key rest true
    else if inSection = true then
      if l.head? = some '[' then []
      else if '=' ∈ l then
        let kv := splitFirstEq l
        if pyLower (pyStrip kv.1) = key then
          (if pyStrip kv.2 = [] then [' '] else pyStrip kv.2)
        else readIniLines sect key rest inSection
      else readIniLines sect key rest inSection
    else readIniLines sect key rest inSection

/-- `read_ini(file_path, section, key)`: `""` when the file is missing, else
scan its lines with lowered section and key names. -/
def read_ini (fs : FS) (filePath sect key : List Char) : List Char :=
  match fsRead fs filePath with
  | none => []
  | some content => readIniLines (pyLower sect) (pyLower key) (pyReadlines content) false

/-- The local version the orchestrator works with, and whether the
missing-version warning is printed: `int(read_ini(...))`, `-1` with a warning
when that raises. -/
def iniVersionOf (fs : FS) (iniFile : List Char) : Int × Bool :=
  match pyInt (read_ini fs iniFile (strChars "version") (strChars "version")) with
  | some n => (n, false)
  | none => (-1, true)

/-! ## Orchestrator data -/

/-- The parsed command-line parameters of the utility. -/
structure Params where
  apikey : List Char
  savefile : List Char
  target : List Char
  verbose : Bool
  log : Bool
  overwrite : Bool
  debug : Bool
  force : Bool
deriving DecidableEq

/-- The environment one run observes: initial filesystem, whether the target
directory pre-exists and whether creating it would succeed, the two HTTP
responses, whether the download request raises, the downloaded bytes, the
archive contents (`none` models an exception while opening/extracting), and
the unique `mkstemp` path. -/
structure ZEntry where
  filename : List Char
  isDir : Bool
  content : List Char
deriving DecidableEq

/-- See `ZEntry`. -/
structure Env where
  fs0 : FS
  targetIsDir : Bool
  mkdirTargetOk : Bool
  versionStatus : Nat
  versionBody : List Char
  downloadRaises : Bool
  downloadStatus : Nat
  downloadBody : List Char
  zipEntries : Option (List ZEntry)
  tmpPath : List Char
deriving DecidableEq

/-- How the process ends: `sys.exit(code)`, an uncaught exception, or
falling off the end of the script (exit status 0). -/
inductive Outcome where
  | exited (code : Nat)
  | raised
  | finished
deriving DecidableEq

/-- One print statement of the script, with the data it interpolates. -/
inductive Msg where
  | banner
  | debugParams (apikey savefile target : List Char)
  | errCreatePath (target : List Char)
  | requestingOnlineVersion
  | errUnableGetVersion
  | onlineVersionIs (v : Nat)
  | checkingIniVersion
  | warnVersionNotFound
  | iniVersionIs (v : Int)
  | warnLocalNewer (localVer : Int) (online : Nat)
  | versionCurrent (v : Nat)
  | requestingFile
  | debugStatus (status : Nat)
  | errUnableDownload
  | errArchiveNotDownloaded
  | extractingFiles (fromPath toPath : List Char)
  | doneUpdated (v : Nat)
deriving DecidableEq

/-- The observable result of one run. -/
structure RunResult where
  fs : FS
  outcome : Outcome
  downloaded : Bool
  trace : List Msg
deriving DecidableEq

/-- The destination directory after the empty-target default
(`_default_base_path`, POSIX branch, with home `/home/user`). -/
def defaultBasePath : List Char :=
  strChars "/home/user/.local/share/VPinballX/10.8/directoutputconfig"

/-- `param_directoutputconfigpath` after defaulting. -/
def runTarget (p : Params) : List Char :=
  if p.target = [] then defaultBasePath else p.target

/-- `ini_file = os.path.join(os.path.dirname(target), "dofconfigversion.ini")`. -/
def runIniFile (p : Params) : List Char := pyJoin (pyDirname (runTarget p)) iniName

/-- The banner and debug-parameter prints (lines 111-120). -/
def preTrace (p : Params) : List Msg :=
  (if p.verbose = true then [Msg.banner] else []) ++
  (if p.debug = true then [Msg.debugParams p.apikey p.savefile (runTarget p)] else [])

/-- The "Requesting Online Version" print (lines 144-145). -/
def queryTrace (p : Params) : List Msg :=
  if p.debug = true ∨ p.verbose = true then [Msg.requestingOnlineVersion] else []

/-- The "Online Version =" print (lines 154-155). -/
def onlineTrace (p : Params) (v : Nat) : List Msg :=
  if p.debug = true ∨ p.verbose = true then [Msg.onlineVersionIs v] else []

/-- The filesystem after the target-directory check (lines 133-138), on the
path where it did not exit. -/
def fs1Of (p : Params) (env : Env) : FS :=
  if env.targetIsDir = true then env.fs0 else fsMkdirs env.fs0 (runTarget p)

/-- The filesystem after `ensure_ini` (line 162). -/
def fs2Of (p : Params) (env : Env) : FS := ensure_ini (fs1Of p env) (runIniFile p)

/-- The version-check block (lines 164-188): `bDoDownload` and its prints. -/
def decideDownload (p : Params) (fs : FS) (iniFile : List Char) (online : Nat) :
    Bool × List Msg :=
  if p.force = true then (true, [])
  else
    let tA := if p.debug = true ∨ p.verbose = true then [Msg.checkingIniVersion] else []
    let iv := iniVersionOf fs iniFile
    let tB := if iv.2 = true then [Msg.warnVersionNotFound] else []
    let tC := if p.debug = true ∨ p.verbose = true then [Msg.iniVersionIs iv.1] else []
    let bDo : Bool := decide ((online : Int) > iv.1)
    let tD :=
      if bDo = true then []
      else if (online : Int) < iv.1 then [Msg.warnLocalNewer iv.1 online]
      else [Msg.versionCurrent online]
    (bDo, tA ++ tB ++ tC ++ tD)

/-- Per-entry destination of the extraction loop,
`os.path.join(param_directoutputconfigpath, member.filename)` (line 226). -/
def extractDest (target : List Char) (m : ZEntry) : List Char := pyJoin target m.filename

/-- One iteration of the extraction loop (lines 225-232). -/
def extractEntry (fs : FS) (target : List Char) (m : ZEntry) : FS :=
  if m.isDir = true then fsMkdirs fs (extractDest target m)
  else fsWrite (fsMkdirs fs (pyDirname (extractDest target m))) (extractDest target m) m.content

/-- The download/validate/extract/persist block (lines 194-242), entered with
`bDoDownload = True`.  The `finally` clause removes the temporary archive on
every path out of the `try`, including the `sys.exit(1)` calls and raised
exceptions; the version record is written only after the whole extraction
loop completed. -/
def downloadAndInstall (p : Params) (env : Env) (target iniFile : List Char)
    (online : Nat) (fs2 : FS) (t3 : List Msg) : RunResult :=
  let t4 := t3 ++ (if p.debug = true ∨ p.verbose = true then [Msg.requestingFile] else [])
  let fs3 := fsWrite fs2 env.tmpPath []
  if env.downloadRaises = true then
    ⟨fsRemove fs3 env.tmpPath, Outcome.raised, true, t4⟩
  else
    let t5 := t4 ++ (if p.debug = true then [Msg.debugStatus env.downloadStatus] else [])
    if env.downloadStatus = 200 then
      let fs4 := fsWrite fs3 env.tmpPath env.downloadBody
      if fsExists fs4 env.tmpPath = false ∨ env.downloadBody.length < 1024 then
        ⟨fsRemove fs4 env.tmpPath, Outcome.exited 1, true, t5 ++ [Msg.errArchiveNotDownloaded]⟩
      else
        let t6 := t5 ++ (if p.debug = true ∨ p.verbose = true then
          [Msg.extractingFiles env.tmpPath target] else [])
        match env.zipEntries with
        | none => ⟨fsRemove fs4 env.tmpPath, Outcome.raised, true, t6⟩
        | some entries =>
          let fs5 := entries.foldl (fun fs m => extractEntry fs target m) fs4
          let fs6 := fsRemove fs5 env.tmpPath
          let fs7 := fsWrite fs6 iniFile (versionRecordContent online)
          let t7 := t6 ++ (if p.verbose = true then [Msg.doneUpdated online] else [])
          ⟨fs7, Outcome.finished, true, t7⟩
    else
      ⟨fsRemove fs3 env.tmpPath, Outcome.exited 1, true, t5 ++ [Msg.errUnableDownload]⟩

/-- The run from the point where the online version is known: `ensure_ini`,
the version check, and then either the skip path or the download block. -/
def afterVersion (p : Params) (env : Env) (online : Nat) (t2 : List Msg) : RunResult :=
  let iniFile := runIniFile p
  let fs2 := fs2Of p env
  let d := decideDownload p fs2 iniFile online
  let t3 := t2 ++ d.2
  if d.1 = true then downloadAndInstall p env (runTarget p) iniFile online fs2 t3
  else ⟨fs2, Outcome.finished, false, t3⟩

/-- The whole script, lines 95-242: parameter post-processing, target
directory check, online version query, then `afterVersion`. -/
def run (p : Params) (env : Env) : RunResult :=
  let param_overwrite := if p.overwrite = true then 2 else 1
  let t0 := preTrace p
  if env.targetIsDir = false ∧ env.mkdirTargetOk = false then
    ⟨env.fs0, Outcome.exited 1, false, t0 ++ [Msg.errCreatePath (runTarget p)]⟩
  else
    let t1 := t0 ++ queryTrace p
    let vb := pyStrip env.versionBody
    if env.versionStatus = 200 ∧ vb ≠ [] ∧ vb.all Char.isDigit = true then
      let online := parseDigits vb
      afterVersion p env online (t1 ++ onlineTrace p online)
    else
      ⟨fs1Of p env, Outcome.exited 1, false, t1 ++ [Msg.errUnableGetVersion]⟩

/-- The target-directory step does not exit: the directory pre-exists or its
creation succeeds. -/
abbrev dirOk (env : Env) : Prop := ¬(env.targetIsDir = false ∧ env.mkdirTargetOk = false)

/-- The version query succeeds and parses to `R` (line 148): HTTP 200 and a
non-empty all-digit stripped body. -/
abbrev versionOk (env : Env) (R : Nat) : Prop :=
  env.versionStatus = 200 ∧ pyStrip env.versionBody ≠ [] ∧
  (pyStrip env.versionBody).all Char.isDigit = true ∧
  parseDigits (pyStrip env.versionBody) = R

/-! ## The `dof.py` wrapper -/

/-- A call into the native library, with the handle it receives. -/
inductive NativeCall where
  | init (handle : Nat) (tableFilename romName : List Char)
  | dataReceive (handle : Nat) (typeChar : Char) (number value : Int)
  | finish (handle : Nat)
  | destroy (handle : Nat)
deriving DecidableEq

/-- The handle argument of a native call. -/
def callHandle : NativeCall → Nat
  | NativeCall.init h _ _ => h
  | NativeCall.dataReceive h _ _ _ => h
  | NativeCall.finish h => h
  | NativeCall.destroy h => h

/-- The Python exceptions the wrapper raises. -/
inductive PyErr where
  | runtimeError
deriving DecidableEq

/-- A `dof.DOF` instance: `_handle` is `None` or a `c_void_p` integer. -/
structure DOF where
  handle : Option Nat
deriving DecidableEq

/-- Python truthiness of `self._handle`: `None` and `0` are falsy. -/
def truthyHandle : Option Nat → Bool
  | none => false
  | some n => n != 0

/-- Result of one wrapper method: raised exception (if any), the instance
state afterwards, and the native calls performed. -/
structure MethodOut where
  err : Option PyErr
  state : DOF
  calls : List NativeCall
deriving DecidableEq

/-- `DOF.__init__`: `dof_create()` returned `h`; `None` result means the
`RuntimeError("dof_create() returned NULL")` path. -/
def DOF.new (h : Nat) : Option DOF :=
  if h = 0 then none else some ⟨some h⟩

/-- `DOF.init`: `_require_handle()` then `dof_init(handle, table, rom)`. -/
def DOF.init (s : DOF) (romName tableFilename : List Char) : MethodOut :=
  if truthyHandle s.handle = true then
    ⟨none, s, [NativeCall.init (s.handle.getD 0) tableFilename romName]⟩
  else ⟨some PyErr.runtimeError, s, []⟩

/-- `DOF.data_receive`: `_require_handle()` then `dof_data_receive(...)`. -/
def DOF.data_receive (s : DOF) (typeChar : Char) (number value : Int) : MethodOut :=
  if truthyHandle s.handle = true then
    ⟨none, s, [NativeCall.dataReceive (s.handle.getD 0) typeChar number value]⟩
  else ⟨some PyErr.runtimeError, s, []⟩

/-- `DOF.finish`: `dof_finish(handle)` only when `self._handle` is truthy. -/
def DOF.finish (s : DOF) : MethodOut :=
  if truthyHandle s.handle = true then ⟨none, s, [NativeCall.finish (s.handle.getD 0)]⟩
  else ⟨none, s, []⟩

/-- `DOF.destroy`: `dof_destroy(handle)` and `_handle = None` only when
`self._handle` is truthy. -/
def DOF.destroy (s : DOF) : MethodOut :=
  if truthyHandle s.handle = true then ⟨none, ⟨none⟩, [NativeCall.destroy (s.handle.getD 0)]⟩
  else ⟨none, s, []⟩

/-! ## Filesystem lemmas -/

theorem fsRead_fsWrite_self (fs : FS) (p c : List Char) :
    fsRead (fsWrite fs p c) p = some c := by
  simp [fsRead, fsWrite, List.find?]

theorem find?_filter_ne {l : List (List Char × List Char)} {p q : List Char} (h : q ≠ p) :
    (l.filter (fun e => e.1 != p)).find? (fun e => e.1 == q) =
      l.find? (fun e => e.1 == q) := by
  induction l with
  | nil => rfl
  | cons e t ih =>
    by_cases he : e.1 = q
    · have h1 : (e.1 == q) = true := by simp [he]
      have h2 : (e.1 != p) = true := by
        simp [he]
        exact h
      simp [List.filter, List.find?, h1, h2]
    · have h1 : (e.1 == q) = false := by simp [he]
      by_cases hp : e.1 = p
      · have h2 : (e.1 != p) = false := by simp [hp]
        simp [List.filter, List.find?, h1, h2, ih]
      · have h2 : (e.1 != p) = true := by simp [hp]
        simp [List.filter, List.find?, h1, h2, ih]

theorem fsRead_fsWrite_ne (fs : FS) (p c q : List Char) (h : q ≠ p) :
    fsRead (fsWrite fs p c) q = fsRead fs q := by
  have h1 : (p == q) = false := by
    simp
    exact fun hh => h hh.symm
  simp [fsRead, fsWrite, List.find?, h1, find?_filter_ne h]

theorem find?_filter_self {l : List (List Char × List Char)} {p : List Char} :
    (l.filter (fun e => e.1 != p)).find? (fun e => e.1 == p) = none := by
  induction l with
  | nil => rfl
  | cons e t ih =>
    by_cases he : e.1 = p
    · have h2 : (e.1 != p) = false := by simp [he]
      simp [List.filter, h2, ih]
    · have h1 : (e.1 == p) = false := by simp [he]
      have h2 : (e.1 != p) = true := by simp [he]
      simp [List.filter, List.find?, h1, h2, ih]

theorem fsRead_fsRemove_self (fs : FS) (p : List Char) :
    fsRead (fsRemove fs p) p = none := by
  simp [fsRead, fsRemove, find?_filter_self]

theorem fsRead_fsRemove_ne (fs : FS) (p q : List Char) (h : q ≠ p) :
    fsRead (fsRemove fs p) q = fsRead fs q := by
  simp [fsRead, fsRemove, find?_filter_ne h]

theorem fsRead_fsMkdirs (fs : FS) (d q : List Char) :
    fsRead (fsMkdirs fs d) q = fsRead fs q := rfl

theorem fsExists_fsMkdirs (fs : FS) (d q : List Char) :
    fsExists (fsMkdirs fs d) q = fsExists fs q := rfl

theorem fsExists_ensure_ini (fs : FS) (pth : List Char) :
    fsExists (ensure_ini fs pth) pth = true := by
  unfold ensure_ini
  by_cases h : fsExists fs pth = true
  · rw [if_pos h]; exact h
  · rw [if_neg h]; simp [fsExists, fsRead_fsWrite_self]

theorem ensure_ini_of_exists (fs : FS) (pth : List Char) (h : fsExists fs pth = true) :
    ensure_ini fs pth = fs := by
  simp [ensure_ini, h]

theorem fsRead_fs1Of (p : Params) (env : Env) (q : List Char) :
    fsRead (fs1Of p env) q = fsRead env.fs0 q := by
  unfold fs1Of; split <;> rfl

theorem read_ini_congr (fs fs2 : FS) (pth s k : List Char)
    (h : fsRead fs pth = fsRead fs2 pth) :
    read_ini fs pth s k = read_ini fs2 pth s k := by
  unfold read_ini; rw [h]

theorem fs1Of_files (p : Params) (env : Env) :
    (fs1Of p env).files = env.fs0.files := by
  unfold fs1Of; split <;> rfl

/-! ## Digit-string lemmas -/

theorem natToChars_props (v : Nat) :
    ∀ c ∈ natToChars v,
      c.isDigit = true ∧ isPySpace c = false ∧ c ≠ '\n' ∧ c ≠ '=' ∧
      c ≠ '+' ∧ c ≠ '-' ∧ c ≠ '_' ∧ c ≠ '[' := by
  intro c hc
  unfold natToChars at hc
  by_cases h : v = 0
  · rw [if_pos h] at hc
    simp at hc
    subst hc
    refine ⟨by decide, by decide, by decide, by decide, by decide, by decide, by decide, by decide⟩
  · rw [if_neg h] at hc
    rw [List.mem_reverse, List.mem_map] at hc
    obtain ⟨d, hd, rfl⟩ := hc
    have hlt : d < 10 := Nat.digits_lt_base (by norm_num) hd
    interval_cases d <;>
      refine ⟨by decide, by decide, by decide, by decide, by decide, by decide, by decide, by decide⟩

theorem natToChars_ne_nil (v : Nat) : natToChars v ≠ [] := by
  unfold natToChars
  by_cases h : v = 0
  · rw [if_pos h]; simp
  · rw [if_neg h]
    simp [Nat.digits_ne_nil_iff_ne_zero, h]

theorem foldl_digits_aux (ds : List Nat) (h : ∀ d ∈ ds, d < 10) (a : Nat) :
    ((ds.map (fun d => Char.ofNat (48 + d))).reverse).foldl
        (fun acc c => 10 * acc + (c.toNat - 48)) a =
      a * 10 ^ ds.length + Nat.ofDigits 10 ds := by
  induction ds generalizing a with
  | nil => simp
  | cons d t ih =>
    have hd : d < 10 := h d (List.mem_cons_self d t)
    have hch : (Char.ofNat (48 + d)).toNat = 48 + d := by
      interval_cases d <;> decide
    have ht : ∀ x ∈ t, x < 10 := fun x hx => h x (List.mem_cons_of_mem d hx)
    rw [List.map_cons, List.reverse_cons, List.foldl_append, ih ht]
    simp [hch, Nat.ofDigits_cons]
    ring

theorem parseDigits_natToChars (v : Nat) : parseDigits (natToChars v) = v := by
  unfold natToChars
  by_cases h : v = 0
  · rw [if_pos h, h]; decide
  · rw [if_neg h]
    have := foldl_digits_aux (Nat.digits 10 v)
      (fun d hd => Nat.digits_lt_base (by norm_num) hd) 0
    simpa [parseDigits, Nat.ofDigits_digits] using this

theorem digitsSepOk_of_digits (cs : List Char) (h : ∀ c ∈ cs, c.isDigit = true) :
    digitsSepOk cs = true := by
  induction cs with
  | nil => rfl
  | cons c t ih =>
    have hc : c.isDigit = true := h c (List.mem_cons_self c t)
    have hne : ¬ c = '_' := by
      intro hh
      rw [hh] at hc
      exact absurd hc (by decide)
    have step : digitsSepOk (c :: t) = (c.isDigit && digitsSepOk t) := by
      rw [digitsSepOk.eq_def]
      simp [hne]
    rw [step, hc, ih (fun x hx => h x (List.mem_cons_of_mem c hx))]
    rfl

theorem stripUnderscores_of_digits (cs : List Char) (h : ∀ c ∈ cs, c.isDigit = true) :
    stripUnderscores cs = cs := by
  induction cs with
  | nil => rfl
  | cons c t ih =>
    have hc : c.isDigit = true := h c (List.mem_cons_self c t)
    have hne : (c != '_') = true := by
      simp
      intro hh
      rw [hh] at hc
      exact absurd hc (by decide)
    rw [stripUnderscores, List.filter_cons]
    rw [stripUnderscores] at ih
    simp only [hne, if_true]
    rw [ih (fun x hx => h x (List.mem_cons_of_mem c hx))]

/-! ## pyStrip lemmas -/

theorem dropWhile_eq_self_of (p : Char → Bool) (xs : List Char)
    (h : ∀ x ∈ xs, p x = false) : xs.dropWhile p = xs := by
  cases xs with
  | nil => rfl
  | cons a t =>
    rw [List.dropWhile_cons, h a (List.mem_cons_self a t)]
    simp

theorem pyStrip_eq_self (xs : List Char) (h : ∀ x ∈ xs, isPySpace x = false) :
    pyStrip xs = xs := by
  unfold pyStrip
  rw [dropWhile_eq_self_of _ _ h,
    dropWhile_eq_self_of _ _ (fun x hx => h x (List.mem_reverse.mp hx)),
    List.reverse_reverse]

theorem pyStrip_append_newline (xs : List Char) (h : ∀ x ∈ xs, isPySpace x = false) :
    pyStrip (xs ++ ['\n']) = xs := by
  cases xs with
  | nil => decide
  | cons a t =>
    unfold pyStrip
    have ha : isPySpace a = false := h a (List.mem_cons_self a t)
    rw [List.cons_append, List.dropWhile_cons, ha]
    simp only [Bool.false_eq_true, if_false]
    rw [List.reverse_cons, List.reverse_append]
    simp only [List.reverse_cons, List.reverse_nil, List.nil_append, List.singleton_append]
    rw [List.cons_append, List.dropWhile_cons]
    have hnl : isPySpace '\n' = true := by decide
    rw [hnl]
    simp only [if_true]
    rw [dropWhile_eq_self_of]
    · rw [List.reverse_append, List.reverse_reverse]
      rfl
    · intro x hx
      rcases List.mem_append.mp hx with hx1 | hx2
      · exact h x (List.mem_cons_of_mem a (List.mem_reverse.mp hx1))
      · rw [List.mem_singleton.mp hx2]
        exact ha

/-! ## Character classification from `isDigit` -/

theorem char_facts_of_isDigit (c : Char) (h : c.isDigit = true) :
    isPySpace c = false ∧ c ≠ '\n' ∧ c ≠ '=' ∧ c ≠ '+' ∧ c ≠ '-' ∧ c ≠ '_' ∧ c ≠ '[' := by
  refine ⟨?_, ?_, ?_, ?_, ?_, ?_, ?_⟩
  · simp only [isPySpace, decide_eq_false_iff_not]
    rintro (rfl | rfl | rfl | rfl | rfl | rfl) <;> exact absurd h (by decide)
  · intro h2; rw [h2] at h; exact absurd h (by decide)
  · intro h2; rw [h2] at h; exact absurd h (by decide)
  · intro h2; rw [h2] at h; exact absurd h (by decide)
  · intro h2; rw [h2] at h; exact absurd h (by decide)
  · intro h2; rw [h2] at h; exact absurd h (by decide)
  · intro h2; rw [h2] at h; exact absurd h (by decide)

/-! ## pyReadlines lemmas -/

theorem pyReadlinesAux_split (a : List Char) (hn : '\n' ∉ a) (b acc : List Char) :
    pyReadlinesAux (a ++ '\n' :: b) acc =
      (acc.reverse ++ (a ++ ['\n'])) :: pyReadlinesAux b [] := by
  induction a generalizing acc with
  | nil =>
    simp [pyReadlinesAux]
  | cons c t ih =>
    have hc : ¬ c = '\n' := by
      intro hh
      exact hn (hh ▸ List.mem_cons_self c t)
    have ht : '\n' ∉ t := fun hh => hn (List.mem_cons_of_mem c hh)
    rw [List.cons_append, pyReadlinesAux, if_neg hc, ih ht]
    simp

theorem pyReadlines_versionRecord (v : Nat) :
    pyReadlines (versionRecordContent v) =
      [strChars "[version]" ++ ['\n'],
       strChars "version=" ++ (natToChars v ++ ['\n'])] := by
  have hshape : versionRecordContent v =
      strChars "[version]" ++ '\n' :: ((strChars "version=" ++ natToChars v) ++ '\n' :: []) := by
    unfold versionRecordContent
    have h0 : strChars "[version]\nversion=" =
        strChars "[version]" ++ '\n' :: strChars "version=" := rfl
    rw [h0]
    simp [List.append_assoc]
  rw [hshape]
  unfold pyReadlines
  rw [pyReadlinesAux_split _ (by decide) _ _]
  have hn2 : '\n' ∉ strChars "version=" ++ natToChars v := by
    intro hm
    rcases List.mem_append.mp hm with h1 | h2
    · exact absurd h1 (by decide)
    · exact absurd (natToChars_props v '\n' h2).2.2.1 (by simp)
  rw [pyReadlinesAux_split _ hn2 _ _]
  simp [pyReadlinesAux, List.append_assoc]

/-! ## read_ini on a version record -/

theorem readIniLines_versionRecord (ds : List Char)
    (hdig : ∀ c ∈ ds, c.isDigit = true) (hne : ds ≠ []) :
    readIniLines (strChars "version") (strChars "version")
      [strChars "[version]" ++ ['\n'], strChars "version=" ++ (ds ++ ['\n'])] false = ds := by
  have hfacts : ∀ c ∈ ds, isPySpace c = false :=
    fun c hc => (char_facts_of_isDigit c (hdig c hc)).1
  have step1 : readIniLines (strChars "version") (strChars "version")
      [strChars "[version]" ++ ['\n'], strChars "version=" ++ (ds ++ ['\n'])] false =
      readIniLines (strChars "version") (strChars "version")
      [strChars "version=" ++ (ds ++ ['\n'])] true := rfl
  rw [step1]
  rw [readIniLines]
  have hstrip : pyStrip (strChars "version=" ++ (ds ++ ['\n'])) = strChars "version=" ++ ds := by
    have hassoc : strChars "version=" ++ (ds ++ ['\n']) =
        (strChars "version=" ++ ds) ++ ['\n'] := by simp [List.append_assoc]
    rw [hassoc]
    apply pyStrip_append_newline
    intro x hx
    have hws : ∀ y ∈ strChars "version=", isPySpace y = false := by decide
    rcases List.mem_append.mp hx with h1 | h2
    · exact hws x h1
    · exact hfacts x h2
  rw [hstrip]
  have hlow : pyLower (strChars "version=" ++ ds) = strChars "version=" ++ pyLower ds := by
    unfold pyLower
    rw [List.map_append]
    have : List.map Char.toLower (strChars "version=") = strChars "version=" := by decide
    rw [this]
  have hcond1 : ¬ (pyLower (strChars "version=" ++ ds) =
      '[' :: (strChars "version" ++ [']'])) := by
    rw [hlow]
    intro hh
    have h1 : (strChars "version=" ++ pyLower ds).head? = some 'v' := rfl
    rw [hh] at h1
    simp at h1
  rw [if_neg hcond1]
  rw [if_pos rfl]
  have hhead : (strChars "version=" ++ ds).head? = some 'v' := rfl
  have hcond2 : ¬ ((strChars "version=" ++ ds).head? = some '[') := by
    rw [hhead]; simp
  rw [if_neg hcond2]
  have hcond3 : '=' ∈ strChars "version=" ++ ds :=
    List.mem_append.mpr (Or.inl (by decide))
  rw [if_pos hcond3]
  have hsplit : splitFirstEq (strChars "version=" ++ ds) = (strChars "version", ds) := rfl
  rw [hsplit]
  have hkey : pyLower (pyStrip (strChars "version")) = strChars "version" := by decide
  rw [if_pos hkey]
  rw [pyStrip_eq_self ds hfacts]
  rw [if_neg hne]

theorem read_ini_versionRecord (fs : FS) (pth : List Char) (v : Nat)
    (h : fsRead fs pth = some (versionRecordContent v)) :
    read_ini fs pth (strChars "version") (strChars "version") = natToChars v := by
  unfold read_ini
  rw [h]
  show readIniLines (pyLower (strChars "version")) (pyLower (strChars "version"))
      (pyReadlines (versionRecordContent v)) false = natToChars v
  have hkey : pyLower (strChars "version") = strChars "version" := by decide
  rw [hkey, pyReadlines_versionRecord v]
  exact readIniLines_versionRecord (natToChars v)
    (fun c hc => (natToChars_props v c hc).1) (natToChars_ne_nil v)

/-! ## pyInt on a digit string -/

theorem pyInt_digits (ds : List Char) (hdig : ∀ c ∈ ds, c.isDigit = true) (hne : ds ≠ []) :
    pyInt ds = some ((parseDigits ds : Nat) : Int) := by
  unfold pyInt
  rw [pyStrip_eq_self ds (fun c hc => (char_facts_of_isDigit c (hdig c hc)).1)]
  cases ds with
  | nil => exact absurd rfl hne
  | cons c cs =>
    have hc : c.isDigit = true := hdig c (List.mem_cons_self c cs)
    obtain ⟨-, -, -, hplus, hminus, -, -⟩ := char_facts_of_isDigit c hc
    have hok : pyIntDigitsOk (c :: cs) = true := by
      rw [pyIntDigitsOk, hc,
        digitsSepOk_of_digits cs (fun x hx => hdig x (List.mem_cons_of_mem c hx))]
      rfl
    simp only [hplus, hminus, if_false, hok, if_true]
    rw [stripUnderscores_of_digits _ hdig]

theorem pyInt_natToChars (v : Nat) : pyInt (natToChars v) = some (v : Int) := by
  rw [pyInt_digits (natToChars v) (fun c hc => (natToChars_props v c hc).1)
    (natToChars_ne_nil v), parseDigits_natToChars]

theorem iniVersionOf_record (fs : FS) (pth : List Char) (v : Nat)
    (h : fsRead fs pth = some (versionRecordContent v)) :
    iniVersionOf fs pth = ((v : Int), false) := by
  unfold iniVersionOf
  rw [read_ini_versionRecord fs pth v h, pyInt_natToChars]

/-! ## Run characterization lemmas -/

theorem run_dirFail (p : Params) (env : Env)
    (h : env.targetIsDir = false ∧ env.mkdirTargetOk = false) :
    run p env = ⟨env.fs0, Outcome.exited 1, false,
      preTrace p ++ [Msg.errCreatePath (runTarget p)]⟩ := by
  unfold run
  rw [if_pos h]

theorem run_versionFail (p : Params) (env : Env) (hd : dirOk env)
    (hv : ¬(env.versionStatus = 200 ∧ pyStrip env.versionBody ≠ [] ∧
      (pyStrip env.versionBody).all Char.isDigit = true)) :
    run p env = ⟨fs1Of p env, Outcome.exited 1, false,
      (preTrace p ++ queryTrace p) ++ [Msg.errUnableGetVersion]⟩ := by
  unfold run
  rw [if_neg hd, if_neg hv]

theorem run_afterVersion (p : Params) (env : Env) (hd : dirOk env)
    (hv : env.versionStatus = 200 ∧ pyStrip env.versionBody ≠ [] ∧
      (pyStrip env.versionBody).all Char.isDigit = true) :
    run p env = afterVersion p env (parseDigits (pyStrip env.versionBody))
      ((preTrace p ++ queryTrace p) ++ onlineTrace p (parseDigits (pyStrip env.versionBody))) := by
  unfold run
  rw [if_neg hd, if_pos hv]

theorem decideDownload_fst (p : Params) (fs : FS) (iniFile : List Char) (online : Nat) :
    (decideDownload p fs iniFile online).1 =
      (p.force || decide ((online : Int) > (iniVersionOf fs iniFile).1)) := by
  unfold decideDownload
  by_cases hf : p.force = true
  · rw [if_pos hf, hf]
    simp
  · rw [if_neg hf]
    have : p.force = false := by
      cases hb : p.force
      · rfl
      · exact absurd hb hf
    rw [this]
    simp

theorem downloadAndInstall_downloaded (p : Params) (env : Env)
    (target iniFile : List Char) (online : Nat) (fs2 : FS) (t3 : List Msg) :
    (downloadAndInstall p env target iniFile online fs2 t3).downloaded = true := by
  simp only [downloadAndInstall]
  repeat' split
  all_goals rfl

theorem afterVersion_downloaded (p : Params) (env : Env) (online : Nat) (t2 : List Msg) :
    (afterVersion p env online t2).downloaded =
      (decideDownload p (fs2Of p env) (runIniFile p) online).1 := by
  unfold afterVersion
  by_cases hb : (decideDownload p (fs2Of p env) (runIniFile p) online).1 = true
  · rw [if_pos hb, downloadAndInstall_downloaded, hb]
  · rw [if_neg hb]
    have : (decideDownload p (fs2Of p env) (runIniFile p) online).1 = false := by
      cases hq : (decideDownload p (fs2Of p env) (runIniFile p) online).1
      · rfl
      · exact absurd hq hb
    rw [this]

theorem afterVersion_skip (p : Params) (env : Env) (online : Nat) (t2 : List Msg)
    (h : (decideDownload p (fs2Of p env) (runIniFile p) online).1 = false) :
    afterVersion p env online t2 = ⟨fs2Of p env, Outcome.finished, false,
      t2 ++ (decideDownload p (fs2Of p env) (runIniFile p) online).2⟩ := by
  unfold afterVersion
  rw [if_neg (by rw [h]; exact Bool.false_ne_true)]

theorem afterVersion_dl (p : Params) (env : Env) (online : Nat) (t2 : List Msg)
    (h : (decideDownload p (fs2Of p env) (runIniFile p) online).1 = true) :
    afterVersion p env online t2 =
      downloadAndInstall p env (runTarget p) (runIniFile p) online (fs2Of p env)
        (t2 ++ (decideDownload p (fs2Of p env) (runIniFile p) online).2) := by
  unfold afterVersion
  rw [if_pos h]

theorem downloadAndInstall_tmp_deleted (p : Params) (env : Env)
    (target iniFile : List Char) (online : Nat) (fs2 : FS) (t3 : List Msg)
    (hni : env.tmpPath ≠ iniFile) :
    fsExists (downloadAndInstall p env target iniFile online fs2 t3).fs env.tmpPath = false := by
  simp only [downloadAndInstall]
  repeat' split
  all_goals
    simp [fsExists, fsRead_fsRemove_self, fsRead_fsWrite_ne _ _ _ _ hni]

theorem downloadAndInstall_ini_char (p : Params) (env : Env)
    (target iniFile : List Char) (online : Nat) (fs2 : FS) (t3 : List Msg)
    (hni : env.tmpPath ≠ iniFile) :
    ((downloadAndInstall p env target iniFile online fs2 t3).outcome = Outcome.finished ∧
      fsRead (downloadAndInstall p env target iniFile online fs2 t3).fs iniFile =
        some (versionRecordContent online)) ∨
    ((downloadAndInstall p env target iniFile online fs2 t3).outcome ≠ Outcome.finished ∧
      fsRead (downloadAndInstall p env target iniFile online fs2 t3).fs iniFile =
        fsRead fs2 iniFile) := by
  simp only [downloadAndInstall]
  repeat' split
  all_goals try (left; exact ⟨rfl, fsRead_fsWrite_self _ _ _⟩)
  all_goals right
  all_goals refine ⟨by simp, ?_⟩
  all_goals
    simp [fsRead_fsRemove_ne _ _ _ (Ne.symm hni), fsRead_fsWrite_ne _ _ _ _ (Ne.symm hni)]

theorem downloadAndInstall_trace_mem (p : Params) (env : Env)
    (target iniFile : List Char) (online : Nat) (fs2 : FS) (t3 : List Msg)
    (m : Msg) (hm : m ∈ t3) :
    m ∈ (downloadAndInstall p env target iniFile online fs2 t3).trace := by
  simp only [downloadAndInstall]
  repeat' split
  all_goals simp [List.mem_append, hm]

/-! ## DOF wrapper lemmas -/

theorem destroy_not_truthy (s : DOF) :
    truthyHandle (DOF.destroy s).state.handle = false := by
  unfold DOF.destroy
  by_cases h : truthyHandle s.handle = true
  · rw [if_pos h]; rfl
  · rw [if_neg h]
    cases hb : truthyHandle s.handle
    · rfl
    · exact absurd hb h

theorem truthy_getD (o : Option Nat) (h : truthyHandle o = true) : o.getD 0 ≠ 0 := by
  cases o with
  | none => simp [truthyHandle] at h
  | some n =>
    simp [truthyHandle] at h
    simpa using h

theorem destroy_untruthy_noop (s : DOF) (h : truthyHandle s.handle = false) :
    DOF.destroy s = ⟨none, s, []⟩ := by
  unfold DOF.destroy
  rw [if_neg (by rw [h]; exact Bool.false_ne_true)]

theorem finish_untruthy_noop (s : DOF) (h : truthyHandle s.handle = false) :
    DOF.finish s = ⟨none, s, []⟩ := by
  unfold DOF.finish
  rw [if_neg (by rw [h]; exact Bool.false_ne_true)]

/-! ## Claims -/

/-- C1: for every local version L (the value the orchestrator reads from the
version record after `ensure_ini`, with the `-1` fallback) and remote version
R (the parsed online version), on any run that reaches the decision, the
orchestrator decides to download iff the force flag is set or R > L, and
skips iff the force flag is unset and R ≤ L. -/
theorem C1_download_decision (p : Params) (env : Env) (R : Nat)
    (hd : dirOk env) (hv : versionOk env R) :
    ((run p env).downloaded = true ↔
      (p.force = true ∨ (R : Int) > (iniVersionOf (fs2Of p env) (runIniFile p)).1)) ∧
    ((run p env).downloaded = false ↔
      (p.force = false ∧ (R : Int) ≤ (iniVersionOf (fs2Of p env) (runIniFile p)).1)) := by
  obtain ⟨h200, hne, hdig, hR⟩ := hv
  rw [run_afterVersion p env hd ⟨h200, hne, hdig⟩, hR]
  rw [afterVersion_downloaded, decideDownload_fst]
  constructor
  · simp [Bool.or_eq_true, decide_eq_true_eq]
  · constructor
    · intro h
      rcases Bool.or_eq_false_iff.mp h with ⟨h1, h2⟩
      exact ⟨h1, not_lt.mp (of_decide_eq_false h2)⟩
    · intro ⟨h1, h2⟩
      rw [h1]
      simpa using not_lt.mpr h2

def paramsW1 : Params := ⟨[], [], strChars "/t/cfg", false, false, false, false, false⟩

def envW1 : Env := ⟨⟨[], []⟩, true, true, 200, strChars "7", false, 200, [],
  none, strChars "/tmp/dofconfig_w1.zip"⟩

/-- C1 witness: with an empty filesystem (record created as version 0) and
remote version 7, the run downloads. -/
theorem C1_download_decision_witness : (run paramsW1 envW1).downloaded = true :=
  (C1_download_decision paramsW1 envW1 7 (by decide) (by decide)).1.mpr
    (Or.inr (by decide))

/-- C4: version-record round trip: for every non-negative integer V, writing
the record file (as line 238-239 does) and then reading it back (as
`read_ini` plus `int(...)` does) yields V. -/
theorem C4_version_roundtrip (fs : FS) (pth : List Char) (v : Nat) :
    pyInt (read_ini (fsWrite fs pth (versionRecordContent v)) pth
      (strChars "version") (strChars "version")) = some (v : Int) := by
  rw [read_ini_versionRecord _ _ _ (fsRead_fsWrite_self fs pth _), pyInt_natToChars]

/-- C3: on every exit path of the download-and-install operation
(successful extraction, download failure, size-validation failure, or an
exception raised during download or extraction) the uniquely named temporary
archive is deleted, under the `mkstemp` freshness guarantee that the
temporary path is not the version-record path. -/
theorem C3_tmp_always_deleted (p : Params) (env : Env)
    (target iniFile : List Char) (online : Nat) (fs2 : FS) (t3 : List Msg)
    (hni : env.tmpPath ≠ iniFile) :
    fsExists (downloadAndInstall p env target iniFile online fs2 t3).fs env.tmpPath = false :=
  downloadAndInstall_tmp_deleted p env target iniFile online fs2 t3 hni

/-- C3 witness: concrete failed download (HTTP 404), temporary file gone. -/
theorem C3_tmp_always_deleted_witness :
    fsExists (downloadAndInstall paramsW1 ⟨⟨[], []⟩, true, true, 200, strChars "7", false,
      404, [], none, strChars "/tmp/dofconfig_w3.zip"⟩ (strChars "/t/cfg")
      (strChars "/t/dofconfigversion.ini") 7 ⟨[], []⟩ []).fs
      (strChars "/tmp/dofconfig_w3.zip") = false :=
  C3_tmp_always_deleted paramsW1 _ _ _ 7 _ _ (by decide)

/-- C7: whenever the remote version endpoint answers HTTP 500 (and the target
directory step passed), the run prints the version error and exits with
status 1, and the regular files of the filesystem are unchanged (only the
target directory may have been created). -/
theorem C7_http500 (p : Params) (env : Env)
    (hd : dirOk env) (h5 : env.versionStatus = 500) :
    (run p env).outcome = Outcome.exited 1 ∧
    Msg.errUnableGetVersion ∈ (run p env).trace ∧
    (run p env).fs.files = env.fs0.files := by
  have hv : ¬(env.versionStatus = 200 ∧ pyStrip env.versionBody ≠ [] ∧
      (pyStrip env.versionBody).all Char.isDigit = true) := by
    intro ⟨h200, _⟩
    rw [h5] at h200
    exact absurd h200 (by norm_num)
  rw [run_versionFail p env hd hv]
  exact ⟨rfl, by simp, fs1Of_files p env⟩

/-- C7 witness: concrete 500 response. -/
theorem C7_http500_witness :
    (run paramsW1 ⟨⟨[], []⟩, true, true, 500, strChars "err", false, 200, [],
      none, strChars "/tmp/dofconfig_w7.zip"⟩).outcome = Outcome.exited 1 ∧
    Msg.errUnableGetVersion ∈ (run paramsW1 ⟨⟨[], []⟩, true, true, 500, strChars "err",
      false, 200, [], none, strChars "/tmp/dofconfig_w7.zip"⟩).trace ∧
    (run paramsW1 ⟨⟨[], []⟩, true, true, 500, strChars "err", false, 200, [],
      none, strChars "/tmp/dofconfig_w7.zip"⟩).fs.files =
      (FS.mk [] []).files :=
  C7_http500 paramsW1 _ (by decide) (by decide)

/-- C8: two runs differing only in the overwrite flag are fully
indistinguishable: the flag is mapped to an internal value (line 100) that no
downstream logic reads, so the decision, filesystem effects, outcome and
trace coincide. -/
theorem C8_overwrite_unused (p : Params) (a b : Bool) (env : Env) :
    run { p with overwrite := a } env = run { p with overwrite := b } env := rfl

/-- C9: the extraction destination is the verbatim `os.path.join` of the
destination root and the stored entry name, with no normalization or
containment check; consequently an entry name with leading `..` segments or
an absolute entry name writes a file outside the destination root. -/
theorem C9_path_traversal :
    (∀ (target : List Char) (m : ZEntry), extractDest target m = pyJoin target m.filename) ∧
    (∀ (fs : FS) (target name content : List Char),
      fsRead (extractEntry fs target ⟨name, false, content⟩) (pyJoin target name) =
        some content) ∧
    pyJoin (strChars "/cfg") (strChars "../evil.txt") = strChars "/cfg/../evil.txt" ∧
    normalizeAbs (strChars "/cfg/../evil.txt") = strChars "/evil.txt" ∧
    escapesRoot (strChars "/cfg") (strChars "../evil.txt") = true ∧
    pyJoin (strChars "/cfg") (strChars "/etc/passwd") = strChars "/etc/passwd" ∧
    escapesRoot (strChars "/cfg") (strChars "/etc/passwd") = true ∧
    escapesRoot (strChars "/cfg") (strChars "sub/ok.txt") = false := by
  refine ⟨fun target m => rfl, ?_, by decide, by decide, by decide, by decide, by decide,
    by decide⟩
  intro fs target name content
  simp [extractEntry, extractDest, fsRead_fsWrite_self]

/-- C10: after `destroy()`, `init` and `data_receive` raise `RuntimeError`
and perform no native call, `finish` and `destroy` are no-ops, and every
native call any wrapper method ever performs carries a non-null handle. -/
theorem C10_handle_lifecycle :
    (∀ (s : DOF) (rom tbl : List Char),
      DOF.init (DOF.destroy s).state rom tbl =
        ⟨some PyErr.runtimeError, (DOF.destroy s).state, []⟩) ∧
    (∀ (s : DOF) (t : Char) (n v : Int),
      DOF.data_receive (DOF.destroy s).state t n v =
        ⟨some PyErr.runtimeError, (DOF.destroy s).state, []⟩) ∧
    (∀ s : DOF, DOF.finish (DOF.destroy s).state = ⟨none, (DOF.destroy s).state, []⟩) ∧
    (∀ s : DOF, DOF.destroy (DOF.destroy s).state = ⟨none, (DOF.destroy s).state, []⟩) ∧
    (∀ (s : DOF) (rom tbl : List Char),
      ((DOF.init s rom tbl).calls.all (fun c => callHandle c != 0)) = true) ∧
    (∀ (s : DOF) (t : Char) (n v : Int),
      ((DOF.data_receive s t n v).calls.all (fun c => callHandle c != 0)) = true) ∧
    (∀ s : DOF, ((DOF.finish s).calls.all (fun c => callHandle c != 0)) = true) ∧
    (∀ s : DOF, ((DOF.destroy s).calls.all (fun c => callHandle c != 0)) = true) := by
  have hng : ∀ s : DOF, ¬ truthyHandle (DOF.destroy s).state.handle = true := by
    intro s h
    rw [destroy_not_truthy s] at h
    exact absurd h (by decide)
  refine ⟨?_, ?_, ?_, ?_, ?_, ?_, ?_, ?_⟩
  · intro s rom tbl
    unfold DOF.init
    rw [if_neg (hng s)]
  · intro s t n v
    unfold DOF.data_receive
    rw [if_neg (hng s)]
  · intro s
    exact finish_untruthy_noop _ (destroy_not_truthy s)
  · intro s
    exact destroy_untruthy_noop _ (destroy_not_truthy s)
  · intro s rom tbl
    unfold DOF.init
    by_cases h : truthyHandle s.handle = true
    · rw [if_pos h]
      simp [callHandle, truthy_getD s.handle h]
    · rw [if_neg h]
      rfl
  · intro s t n v
    unfold DOF.data_receive
    by_cases h : truthyHandle s.handle = true
    · rw [if_pos h]
      simp [callHandle, truthy_getD s.handle h]
    · rw [if_neg h]
      rfl
  · intro s
    unfold DOF.finish
    by_cases h : truthyHandle s.handle = true
    · rw [if_pos h]
      simp [callHandle, truthy_getD s.handle h]
    · rw [if_neg h]
      rfl
  · intro s
    unfold DOF.destroy
    by_cases h : truthyHandle s.handle = true
    · rw [if_pos h]
      simp [callHandle, truthy_getD s.handle h]
    · rw [if_neg h]
      rfl

theorem iniVersionOf_congr (fs fs2 : FS) (pth : List Char)
    (h : fsRead fs pth = fsRead fs2 pth) :
    iniVersionOf fs pth = iniVersionOf fs2 pth := by
  unfold iniVersionOf
  rw [read_ini_congr _ _ _ _ _ h]

theorem downloadAndInstall_finished_read (p : Params) (env : Env)
    (target iniFile : List Char) (online : Nat) (fs2 : FS) (t3 : List Msg)
    (h : (downloadAndInstall p env target iniFile online fs2 t3).outcome = Outcome.finished) :
    fsRead (downloadAndInstall p env target iniFile online fs2 t3).fs iniFile =
      some (versionRecordContent online) := by
  by_cases h1 : env.downloadRaises = true
  · exfalso
    simp only [downloadAndInstall, if_pos h1] at h
    exact absurd h (by decide)
  by_cases h2 : env.downloadStatus = 200
  · by_cases h3 : fsExists (fsWrite (fsWrite fs2 env.tmpPath []) env.tmpPath env.downloadBody)
        env.tmpPath = false ∨ env.downloadBody.length < 1024
    · exfalso
      simp only [downloadAndInstall, if_neg h1, if_pos h2, if_pos h3] at h
      exact absurd h (by decide)
    · cases hz : env.zipEntries with
      | none =>
        exfalso
        simp only [downloadAndInstall, if_neg h1, if_pos h2, if_neg h3, hz] at h
        exact absurd h (by decide)
      | some entries =>
        simp only [downloadAndInstall, if_neg h1, if_pos h2, if_neg h3, hz]
        exact fsRead_fsWrite_self _ _ _
  · exfalso
    simp only [downloadAndInstall, if_neg h1, if_neg h2] at h
    exact absurd h (by decide)

theorem bool_eq_false_of_ne_true {b : Bool} (h : ¬ b = true) : b = false := by
  cases hb : b
  · rfl
  · exact absurd hb h

/-- C2 (amended): the version record is overwritten with the fetched remote
version exactly when the download path runs and extraction completes without
error; on the skip path and on download, validation, or extraction failure
the record keeps the content it had after the `ensure_ini` step.  (The
`ensure_ini` step itself creates a missing record with version 0 on every
path that reaches the decision — see the counterexample.) -/
theorem C2_persist_only_on_success (p : Params) (env : Env) (R : Nat)
    (hd : dirOk env) (hv : versionOk env R)
    (hni : env.tmpPath ≠ runIniFile p) :
    ((run p env).downloaded = false →
      (run p env).outcome = Outcome.finished ∧
      fsRead (run p env).fs (runIniFile p) = fsRead (fs2Of p env) (runIniFile p)) ∧
    ((run p env).outcome ≠ Outcome.finished →
      fsRead (run p env).fs (runIniFile p) = fsRead (fs2Of p env) (runIniFile p)) ∧
    ((run p env).downloaded = true → (run p env).outcome = Outcome.finished →
      fsRead (run p env).fs (runIniFile p) = some (versionRecordContent R)) := by
  obtain ⟨h200, hne, hdig, hR⟩ := hv
  rw [run_afterVersion p env hd ⟨h200, hne, hdig⟩, hR]
  by_cases hb : (decideDownload p (fs2Of p env) (runIniFile p) R).1 = true
  · rw [afterVersion_dl p env R _ hb]
    rcases downloadAndInstall_ini_char p env (runTarget p) (runIniFile p) R (fs2Of p env)
        _ hni with ⟨hfin, hread⟩ | ⟨hnfin, hread⟩
    · refine ⟨?_, ?_, fun _ _ => hread⟩
      · intro hdl
        rw [downloadAndInstall_downloaded] at hdl
        exact absurd hdl (by decide)
      · intro hnf
        exact absurd hfin hnf
    · refine ⟨?_, fun _ => hread, ?_⟩
      · intro hdl
        rw [downloadAndInstall_downloaded] at hdl
        exact absurd hdl (by decide)
      · intro _ hfin
        exact absurd hfin hnfin
  · rw [afterVersion_skip p env R _ (bool_eq_false_of_ne_true hb)]
    refine ⟨fun _ => ⟨rfl, rfl⟩, fun hnf => absurd rfl hnf, fun hdl => ?_⟩
    exact absurd hdl Bool.false_ne_true

def envC2 : Env := ⟨⟨[], []⟩, true, true, 200, strChars "0", false, 200, [],
  none, strChars "/tmp/dofconfig_c2.zip"⟩

/-- C2 counterexample: a run that takes the skip path (remote version 0,
record file absent) does not leave the version record file unchanged: the
`ensure_ini` step creates it with version 0. -/
theorem C2_counterexample :
    (run paramsW1 envC2).downloaded = false ∧
    (run paramsW1 envC2).outcome = Outcome.finished ∧
    fsRead envC2.fs0 (runIniFile paramsW1) = none ∧
    fsRead (run paramsW1 envC2).fs (runIniFile paramsW1) = some iniDefaultContent := by
  decide

/-- C2 witness: the amended theorem instantiated at the concrete skip run. -/
theorem C2_persist_only_on_success_witness :
    ((run paramsW1 envC2).downloaded = false →
      (run paramsW1 envC2).outcome = Outcome.finished ∧
      fsRead (run paramsW1 envC2).fs (runIniFile paramsW1) =
        fsRead (fs2Of paramsW1 envC2) (runIniFile paramsW1)) ∧
    ((run paramsW1 envC2).outcome ≠ Outcome.finished →
      fsRead (run paramsW1 envC2).fs (runIniFile paramsW1) =
        fsRead (fs2Of paramsW1 envC2) (runIniFile paramsW1)) ∧
    ((run paramsW1 envC2).downloaded = true →
      (run paramsW1 envC2).outcome = Outcome.finished →
      fsRead (run paramsW1 envC2).fs (runIniFile paramsW1) =
        some (versionRecordContent 0)) :=
  C2_persist_only_on_success paramsW1 envC2 0 (by decide) (by decide) (by decide)

/-- C6: whenever the record file's version value is missing or not parseable
as an integer (after `ensure_ini`), the unforced orchestrator treats the
local version as -1, prints the warning, and continues into the download
path instead of terminating at the version check. -/
theorem C6_missing_local_version (p : Params) (env : Env) (R : Nat)
    (hd : dirOk env) (hv : versionOk env R) (hf : p.force = false)
    (hparse : pyInt (read_ini (fs2Of p env) (runIniFile p)
      (strChars "version") (strChars "version")) = none) :
    iniVersionOf (fs2Of p env) (runIniFile p) = (-1, true) ∧
    Msg.warnVersionNotFound ∈ (run p env).trace ∧
    (run p env).downloaded = true := by
  have hiv : iniVersionOf (fs2Of p env) (runIniFile p) = (-1, true) := by
    unfold iniVersionOf
    rw [hparse]
  obtain ⟨h200, hne, hdig, hR⟩ := hv
  rw [run_afterVersion p env hd ⟨h200, hne, hdig⟩, hR]
  have hgt : ((R : Int) > (-1 : Int)) := by
    have h0 : (0 : Int) ≤ (R : Int) := Int.natCast_nonneg R
    omega
  refine ⟨hiv, ?_, ?_⟩
  · have hmem : Msg.warnVersionNotFound ∈
        (decideDownload p (fs2Of p env) (runIniFile p) R).2 := by
      unfold decideDownload
      rw [if_neg (by rw [hf]; exact Bool.false_ne_true)]
      simp [hiv]
    by_cases hb : (decideDownload p (fs2Of p env) (runIniFile p) R).1 = true
    · rw [afterVersion_dl p env R _ hb]
      exact downloadAndInstall_trace_mem _ _ _ _ _ _ _ _
        (List.mem_append.mpr (Or.inr hmem))
    · rw [afterVersion_skip p env R _ (bool_eq_false_of_ne_true hb)]
      exact List.mem_append.mpr (Or.inr hmem)
  · rw [afterVersion_downloaded, decideDownload_fst, hf, Bool.false_or, hiv]
    simpa using hgt

def envW6 : Env := ⟨⟨[(strChars "/t/dofconfigversion.ini",
  strChars "[version]\nversion=abc\n")], []⟩, true, true, 200, strChars "3",
  false, 200, [], none, strChars "/tmp/dofconfig_w6.zip"⟩

/-- C6 witness: a record whose value is the non-numeric `abc`. -/
theorem C6_missing_local_version_witness :
    iniVersionOf (fs2Of paramsW1 envW6) (runIniFile paramsW1) = (-1, true) ∧
    Msg.warnVersionNotFound ∈ (run paramsW1 envW6).trace ∧
    (run paramsW1 envW6).downloaded = true :=
  C6_missing_local_version paramsW1 envW6 3 (by decide) (by decide) rfl (by decide)

/-- C5 (amended): if the first run completes with exit status 0 (it finished,
whether by skipping or by a successful install), then a second run against
the resulting filesystem, with the remote version response unchanged and the
force flag unset, takes the skip path and performs zero downloads. -/
theorem C5_second_run_skips (p : Params) (env1 env2 : Env)
    (hf : p.force = false)
    (h1 : (run p env1).outcome = Outcome.finished)
    (hs : env2.versionStatus = env1.versionStatus)
    (hb : env2.versionBody = env1.versionBody)
    (hfs : env2.fs0 = (run p env1).fs) :
    (run p env2).downloaded = false := by
  have hd1 : dirOk env1 := by
    intro hcon
    rw [run_dirFail p env1 hcon] at h1
    exact Outcome.noConfusion h1
  have hv1 : env1.versionStatus = 200 ∧ pyStrip env1.versionBody ≠ [] ∧
      (pyStrip env1.versionBody).all Char.isDigit = true := by
    by_contra hcon
    rw [run_versionFail p env1 hd1 hcon] at h1
    exact Outcome.noConfusion h1
  rw [run_afterVersion p env1 hd1 hv1] at h1 hfs
  by_cases hd2 : env2.targetIsDir = false ∧ env2.mkdirTargetOk = false
  · rw [run_dirFail p env2 hd2]
  · have hv2 : env2.versionStatus = 200 ∧ pyStrip env2.versionBody ≠ [] ∧
        (pyStrip env2.versionBody).all Char.isDigit = true := by
      rw [hs, hb]
      exact hv1
    rw [run_afterVersion p env2 hd2 hv2, afterVersion_downloaded, decideDownload_fst,
      hf, Bool.false_or, hb]
    by_cases hdl : (decideDownload p (fs2Of p env1) (runIniFile p)
        (parseDigits (pyStrip env1.versionBody))).1 = true
    · rw [afterVersion_dl p env1 _ _ hdl] at h1 hfs
      have hread := downloadAndInstall_finished_read p env1 (runTarget p) (runIniFile p)
        (parseDigits (pyStrip env1.versionBody)) (fs2Of p env1) _ h1
      have hrec : fsRead env2.fs0 (runIniFile p) =
          some (versionRecordContent (parseDigits (pyStrip env1.versionBody))) := by
        rw [hfs]
        exact hread
      have hex : fsExists (fs1Of p env2) (runIniFile p) = true := by
        unfold fsExists
        rw [fsRead_fs1Of, hrec]
        rfl
      have hfs2read : fsRead (fs2Of p env2) (runIniFile p) =
          some (versionRecordContent (parseDigits (pyStrip env1.versionBody))) := by
        unfold fs2Of
        rw [ensure_ini_of_exists _ _ hex, fsRead_fs1Of, hrec]
      rw [iniVersionOf_record _ _ _ hfs2read]
      simp
    · rw [afterVersion_skip p env1 _ _ (bool_eq_false_of_ne_true hdl)] at hfs
      have hdec1 : decide ((parseDigits (pyStrip env1.versionBody) : Int) >
          (iniVersionOf (fs2Of p env1) (runIniFile p)).1) = false := by
        have hfst := decideDownload_fst p (fs2Of p env1) (runIniFile p)
          (parseDigits (pyStrip env1.versionBody))
        rw [hf, Bool.false_or] at hfst
        rw [← hfst]
        exact bool_eq_false_of_ne_true hdl
      have hex1 : fsExists (fs2Of p env1) (runIniFile p) = true := by
        unfold fs2Of
        exact fsExists_ensure_ini _ _
      have hex2 : fsExists (fs1Of p env2) (runIniFile p) = true := by
        unfold fsExists
        rw [fsRead_fs1Of, hfs]
        exact hex1
      have hsame : fsRead (fs2Of p env2) (runIniFile p) =
          fsRead (fs2Of p env1) (runIniFile p) := by
        unfold fs2Of
        rw [ensure_ini_of_exists _ _ hex2, fsRead_fs1Of, hfs]
        rfl
      rw [iniVersionOf_congr _ _ _ hsame]
      exact hdec1

def envC5a : Env := ⟨⟨[], []⟩, true, true, 200, strChars "5", false, 404, [],
  none, strChars "/tmp/dofconfig_c5.zip"⟩

def envC5b : Env := ⟨(run paramsW1 envC5a).fs, true, true, 200, strChars "5", false, 404, [],
  none, strChars "/tmp/dofconfig_c5.zip"⟩

/-- C5 counterexample: two runs in succession, remote version unchanged (5)
and force unset; the first run's download fails (HTTP 404) so the record is
never advanced, and the second run triggers a download again — the claim
without a first-run-success proviso is false. -/
theorem C5_counterexample :
    paramsW1.force = false ∧
    envC5b.versionStatus = envC5a.versionStatus ∧
    envC5b.versionBody = envC5a.versionBody ∧
    envC5b.fs0 = (run paramsW1 envC5a).fs ∧
    (run paramsW1 envC5b).downloaded = true := by
  decide

def envW5a : Env := ⟨⟨[(strChars "/t/dofconfigversion.ini",
  strChars "[version]\nversion=7\n")], []⟩, true, true, 200, strChars "7",
  false, 200, [], none, strChars "/tmp/dofconfig_w5.zip"⟩

def envW5b : Env := ⟨(run paramsW1 envW5a).fs, true, true, 200, strChars "7",
  false, 200, [], none, strChars "/tmp/dofconfig_w5.zip"⟩

/-- C5 witness: a finished first run (local 7, remote 7, skip), then zero
downloads on the second run. -/
theorem C5_second_run_skips_witness : (run paramsW1 envW5b).downloaded = false :=
  C5_second_run_skips paramsW1 envW5a envW5b rfl (by decide) rfl rfl rfl
